import Mathlib

/-!
Verification of the Telegram relay script (script3.py): text normalization,
stop-word and key-word matching, the fuzzy duplicate store with 24h expiry,
the per-message classification pipeline with its forwarding and sleeping
effects, and startup configuration validation, shallowly embedded in Lean.

Message texts are modelled as lists of characters; timestamps as natural
numbers of seconds; the rapidfuzz similarity score as an exact rational.
-/

namespace Proba2

/-- Message texts are modelled as lists of characters. -/
abbrev Str := List Char

/-- Coerces a Lean string literal to the character-list representation. -/
def S (s : String) : Str := s.data

/-- Embeds Python str.lower, applied character by character (ASCII case map;
the configured phrases and counterexamples below only use ASCII). -/
def lowerStr (s : Str) : Str := s.map Char.toLower

/-- Embeds remove_spaces (script3.py line 69), whose body replaces every
occurrence of the one-character pattern consisting of the ASCII space with
the empty string: every ASCII space is deleted and nothing else. -/
def remove_spaces (s : Str) : Str := s.filter (fun c => c != ' ')

/-- Helper for the Python substring test: decides whether n is a leading
block of h. -/
def pre_eq : Str → Str → Bool
  | [], _ => true
  | _ :: _, [] => false
  | a :: as, b :: bs => a == b && pre_eq as bs

/-- Embeds the Python membership operator on strings: n occurs in h as a
contiguous substring (the empty needle occurs in every string). -/
def str_in (n : Str) : Str → Bool
  | [] => n.isEmpty
  | c :: cs => pre_eq n (c :: cs) || str_in n cs

/-- Inner step of the longest-common-subsequence length: lcsAs is the
matcher against the tail of the first string; recursion is structural in
the second string so that the kernel can evaluate it. -/
def lcsCons (lcsAs : Str → Nat) (a : Char) : Str → Nat
  | [] => 0
  | b :: bs => if a = b then lcsAs bs + 1 else max (lcsCons lcsAs a bs) (lcsAs (b :: bs))

/-- Length of a longest common subsequence of two character lists; the
combinatorial core of the rapidfuzz indel similarity. -/
def lcs : Str → Str → Nat
  | [], _ => 0
  | a :: as, b => lcsCons (lcs as) a b

/-- Embeds rapidfuzz fuzz.ratio: the normalized indel similarity
200 * lcs(a,b) / (len a + len b) in the range 0..100, as an exact rational
(rapidfuzz returns 100 when both strings are empty). -/
def fuzzRatio (a b : Str) : Rat :=
  if a.length + b.length = 0 then 100
  else (200 * (lcs a b : Rat)) / ((a.length : Rat) + (b.length : Rat))

/-- Embeds message_store (script3.py line 16): a Python dict from original
message text to admission timestamp, in insertion order. -/
abbrev Store := List (Str × Nat)

/-- Embeds FILTER_DURATION = timedelta(days=1), in seconds. -/
def FILTER_DURATION : Nat := 86400

/-- Embeds SIMILARITY_THRESHOLD = 90. -/
def SIMILARITY_THRESHOLD : Rat := 90

/-- The comparison fuzz.ratio(a, b) >= SIMILARITY_THRESHOLD with the
denominator cleared: 90 <= 200 * lcs / (len a + len b) holds exactly when
9 * (len a + len b) <= 20 * lcs (also at len a + len b = 0, where the ratio
is 100). Stated as the rational comparison in similarity_ge_iff below; the
integer form keeps the definition evaluable by the kernel. -/
def similarity_ge (a b : Str) : Bool :=
  decide (9 * (a.length + b.length) ≤ 20 * lcs a b)

/-- Embeds is_similar (script3.py lines 54-63): some stored original text
has fuzz.ratio(stored, candidate) at or above the threshold. -/
def is_similar (store : Store) (message_text : Str) : Bool :=
  store.any (fun e => similarity_ge e.1 message_text)

/-- Embeds remove_old_messages (script3.py lines 83-92): delete every entry
whose age now - timestamp strictly exceeds FILTER_DURATION, keep the rest in
order. Timestamps never exceed now in runs of the program; for timestamps in
the future, Python would compare a negative timedelta and also keep the
entry, matching truncated Nat subtraction here. -/
def remove_old_messages (store : Store) (now : Nat) : Store :=
  store.filter (fun e => decide (¬ (now - e.2 > FILTER_DURATION)))

/-- Embeds Python dict assignment store[k] = v: overwrite in place when the
key is present, append a new entry otherwise. -/
def dict_set (store : Store) (k : Str) (v : Nat) : Store :=
  if store.any (fun e => decide (e.1 = k)) then
    store.map (fun e => if e.1 = k then (k, v) else e)
  else store ++ [(k, v)]

/-- The configuration variables imported from the missing config module,
typed from their use in script3.py and the spec: an integer API id, string
credentials and destinations, a list of watched chat ids, and the two
phrase lists. -/
structure AppConfig where
  api_id : Nat
  api_hash : Str
  session : Str
  destination : Str
  stop_words_destination : Str
  chats : List Int
  key_words : List Str
  stop_words : List Str

/-- Embeds STOP_WORDS_SET (script3.py line 25): stop words lowercased once
at startup (set membership is only ever used through any, so a list in
configuration order is a faithful model). -/
def stop_words_set (cfg : AppConfig) : List Str := cfg.stop_words.map lowerStr

/-- Embeds KEY_WORDS_SET (script3.py line 28). -/
def key_words_set (cfg : AppConfig) : List Str := cfg.key_words.map lowerStr

/-- Embeds contains_stop_words (script3.py lines 71-81): lowercase the
message, delete its spaces, and test whether any stop word, spaces deleted,
occurs in it as a substring. -/
def contains_stop_words (cfg : AppConfig) (message_text : Str) : Bool :=
  let clean_message_text := remove_spaces (lowerStr message_text)
  (stop_words_set cfg).any (fun w => str_in (remove_spaces w) clean_message_text)

/-- Embeds the inline key-word check of the handler (script3.py lines
124-127), identical in shape to contains_stop_words. -/
def contains_key_words (cfg : AppConfig) (message_text : Str) : Bool :=
  let clean_message_text := remove_spaces (lowerStr message_text)
  (key_words_set cfg).any (fun w => str_in (remove_spaces w) clean_message_text)

/-- The normalization the handler applies to message text and phrases
before containment tests: lowercase, then delete the ASCII spaces (the
value of clean_message_text in the source). -/
def clean_text (t : Str) : Str := remove_spaces (lowerStr t)

/-- Modelled from the spec: the normalization §4.1 describes, which
lowercases and removes every whitespace character, not only the ASCII
space. Used to compare the claim against the code. -/
def normalizeSpec (t : Str) : Str := (lowerStr t).filter (fun c => !c.isWhitespace)

/-- Every two distinct entries of the store score strictly below the
similarity threshold against each other. -/
def PairwiseDissim (s : Store) : Prop :=
  ∀ e1 ∈ s, ∀ e2 ∈ s, e1 ≠ e2 → fuzzRatio e1.1 e2.1 < SIMILARITY_THRESHOLD

/-- The two forwarding destinations of the script. -/
inductive Dest
  | primary
  | stop
deriving DecidableEq, Repr

/-- The externally observable actions the handler performs, in order: log
lines carry the timestamp log_with_time prepends, forwardMsg is a call to
client.forward_messages, and sleep is asyncio.sleep for the given number of
seconds. -/
inductive Action
  | logInfo (time : Nat)
  | logError (time : Nat)
  | forwardMsg (dest : Dest)
  | sleep (seconds : Nat)
deriving DecidableEq, Repr

/-- Recognizes the forward-call actions in a trace. -/
def isForwardAct : Action → Bool
  | .forwardMsg _ => true
  | _ => false

/-- The classification the pipeline reaches for a message. -/
inductive Outcome
  | dropNoText
  | forwardStop
  | dropDuplicate
  | forwardPrimary
  | dropNoKeyword
deriving DecidableEq, Repr

/-- Result of one handler invocation: the classification outcome, the
duplicate store afterwards, and the performed actions in order. -/
structure HandlerResult where
  outcome : Outcome
  store : Store
  actions : List Action
deriving DecidableEq, Repr

/-- Embeds new_message_handler (script3.py lines 94-140). A message with
falsy text (None or empty) is skipped before the sweep. Otherwise the store
is swept once, then the stop-word, similarity and key-word checks run in
that order, first match deciding. The only statements that can raise inside
the try block are the two forward_messages calls; stopOk and primaryOk
state whether the forward call that branch performs returns normally. When
a forward raises, the except branch logs the error with a timestamp and
sleeps 60 seconds; in the key-word branch the store assignment has already
happened before the forward, so the admission survives a failed forward. -/
def new_message_handler (cfg : AppConfig) (store : Store) (now : Nat)
    (text : Str) (stopOk primaryOk : Bool) : HandlerResult :=
  if text.isEmpty then
    ⟨.dropNoText, store, [.logInfo now, .logInfo now]⟩
  else
    let s1 := remove_old_messages store now
    if contains_stop_words cfg text then
      if stopOk then
        ⟨.forwardStop, s1, [.logInfo now, .forwardMsg .stop, .logInfo now]⟩
      else
        ⟨.forwardStop, s1, [.logInfo now, .forwardMsg .stop, .logError now, .sleep 60]⟩
    else if is_similar s1 text then
      ⟨.dropDuplicate, s1, [.logInfo now, .logInfo now]⟩
    else if contains_key_words cfg text then
      let s2 := dict_set s1 text now
      if primaryOk then
        ⟨.forwardPrimary, s2, [.logInfo now, .forwardMsg .primary, .logInfo now, .sleep 2]⟩
      else
        ⟨.forwardPrimary, s2, [.logInfo now, .forwardMsg .primary, .logError now, .sleep 60]⟩
    else
      ⟨.dropNoKeyword, s1, [.logInfo now, .logInfo now]⟩

/-- The store evolution of one handler invocation. The evolution does not
depend on transport success: the admission assignment precedes the forward
call in the source. -/
def handler_store (cfg : AppConfig) (store : Store) (now : Nat) (text : Str) : Store :=
  (new_message_handler cfg store now text true true).store

/-- Folds the handler store evolution over a sequence of received events,
each a pair of arrival time and message text. -/
def run_events (cfg : AppConfig) : Store → List (Nat × Str) → Store
  | s, [] => s
  | s, (now, t) :: rest => run_events cfg (handler_store cfg s now t) rest

/-- The error message of validate_config for a missing variable (script3.py
line 47, quotes around the name elided). -/
def errMsg (name : String) : String :=
  "The required config variable " ++ name ++ " is not set or is empty"

/-- Embeds the required_globals dict of validate_config (script3.py lines
35-44) as the list of variable names paired with their Python truthiness,
in insertion order. -/
def requiredGlobals (c : AppConfig) : List (String × Bool) :=
  [("API_ID", c.api_id != 0),
   ("API_HASH", !c.api_hash.isEmpty),
   ("SESSION", !c.session.isEmpty),
   ("DESTINATION", !c.destination.isEmpty),
   ("STOP_WORDS_DESTINATION", !c.stop_words_destination.isEmpty),
   ("CHATS", !c.chats.isEmpty),
   ("KEY_WORDS", !c.key_words.isEmpty),
   ("STOP_WORDS", !c.stop_words.isEmpty)]

/-- The loop of validate_config: raise on the first falsy variable. -/
def checkVars : List (String × Bool) → Except String Unit
  | [] => .ok ()
  | (n, v) :: rest => if !v then .error (errMsg n) else checkVars rest

/-- Embeds validate_config (script3.py lines 30-47). -/
def validate_config (c : AppConfig) : Except String Unit :=
  checkVars (requiredGlobals c)

/-- A small concrete configuration used by the witness instantiations:
one watched chat, one key word and one stop word. -/
def cfgEx : AppConfig :=
  ⟨1, S "h", S "s", S "dest", S "stopdest", [100], [S "key"], [S "stop"]⟩

/-- Embeds the program entry point (script3.py lines 153-157):
validate_config runs before the client starts, so a validation error
prevents any event from being consumed; otherwise the events are processed
in arrival order. -/
def run_bot (c : AppConfig) (events : List (Nat × Str)) : Except String Store :=
  match validate_config c with
  | .error e => .error e
  | .ok _ => .ok (run_events c [] events)

/-! Basic lemmas about the embedded operations. -/

theorem lcs_nil_left (b : Str) : lcs [] b = 0 := rfl

theorem lcs_nil_right (a : Str) : lcs a [] = 0 := by cases a <;> rfl

theorem lcs_cons_cons (a : Char) (as : Str) (b : Char) (bs : Str) :
    lcs (a :: as) (b :: bs) =
      if a = b then lcs as bs + 1 else max (lcs (a :: as) bs) (lcs as (b :: bs)) := rfl

/-- A string has a longest common subsequence with itself of full length. -/
theorem lcs_self (a : Str) : lcs a a = a.length := by
  induction a with
  | nil => rfl
  | cons c cs ih => simp [lcs_cons_cons, ih]

/-- The longest-common-subsequence length is symmetric in its arguments. -/
theorem lcs_comm (a b : Str) : lcs a b = lcs b a := by
  induction a generalizing b with
  | nil => simp [lcs_nil_left, lcs_nil_right]
  | cons c cs iha =>
    induction b with
    | nil => simp [lcs_nil_left, lcs_nil_right]
    | cons d ds ihb =>
      rw [lcs_cons_cons, lcs_cons_cons]
      by_cases h : c = d
      · subst h
        simp [iha]
      · rw [if_neg h, if_neg (fun hh => h hh.symm), iha, ihb, Nat.max_comm]

/-- The fuzzy similarity of a string with itself is the maximal score 100,
also for the empty string (the rapidfuzz convention). -/
theorem fuzzRatio_self (a : Str) : fuzzRatio a a = 100 := by
  rcases eq_or_ne a [] with h | h
  · subst h; rfl
  · have hl : 0 < a.length := List.length_pos.mpr h
    rw [fuzzRatio, lcs_self, if_neg (by omega)]
    have h0 : (0 : Rat) < (a.length : Rat) := by exact_mod_cast hl
    have hq : ((a.length : Rat) + (a.length : Rat)) ≠ 0 := by
      intro hc; nlinarith
    rw [div_eq_iff hq]
    ring

/-- The fuzzy similarity score is symmetric. -/
theorem fuzzRatio_comm (a b : Str) : fuzzRatio a b = fuzzRatio b a := by
  rw [fuzzRatio, fuzzRatio, lcs_comm, Nat.add_comm a.length b.length,
    add_comm ((a.length : Rat)) ((b.length : Rat))]

/-- The integer threshold test agrees with the rational statement that the
fuzzy similarity score reaches SIMILARITY_THRESHOLD. -/
theorem similarity_ge_iff (a b : Str) :
    similarity_ge a b = true ↔ SIMILARITY_THRESHOLD ≤ fuzzRatio a b := by
  rw [similarity_ge, decide_eq_true_iff, SIMILARITY_THRESHOLD, fuzzRatio]
  rcases Nat.eq_zero_or_pos (a.length + b.length) with h | h
  · rw [if_pos h]
    have ha : a.length = 0 := by omega
    have hb : b.length = 0 := by omega
    rw [List.length_eq_zero] at ha hb
    subst ha; subst hb
    simp [lcs_nil_left]
    norm_num
  · rw [if_neg (by omega)]
    have h0 : (0 : Rat) < (a.length : Rat) + (b.length : Rat) := by
      have : (0 : Rat) < ((a.length + b.length : Nat) : Rat) := by exact_mod_cast h
      push_cast at this
      linarith
    rw [le_div_iff₀ h0]
    rw [show (90 : Rat) * ((a.length : Rat) + (b.length : Rat))
          = ((90 * (a.length + b.length) : Nat) : Rat) by push_cast; ring]
    rw [show (200 : Rat) * ((lcs a b : Nat) : Rat)
          = ((200 * lcs a b : Nat) : Rat) by push_cast; ring]
    rw [Nat.cast_le]
    omega

/-- Failing the integer threshold test is the strict rational inequality in
the other direction. -/
theorem similarity_ge_false_iff (a b : Str) :
    similarity_ge a b = false ↔ fuzzRatio a b < SIMILARITY_THRESHOLD := by
  rw [← not_le, ← similarity_ge_iff]
  cases hsb : similarity_ge a b <;> simp

/-- A string at or above the threshold against itself: ratio(a, a) = 100. -/
theorem similarity_ge_self (a : Str) : similarity_ge a a = true := by
  rw [similarity_ge_iff, fuzzRatio_self, SIMILARITY_THRESHOLD]
  norm_num

/-- is_similar finds exactly the stored entries whose score against the
candidate reaches the threshold. -/
theorem is_similar_iff (store : Store) (t : Str) :
    is_similar store t = true ↔
      ∃ e ∈ store, SIMILARITY_THRESHOLD ≤ fuzzRatio e.1 t := by
  simp [is_similar, List.any_eq_true, similarity_ge_iff]

/-- is_similar returns false exactly when every stored entry scores
strictly below the threshold against the candidate. -/
theorem is_similar_false_iff (store : Store) (t : Str) :
    is_similar store t = false ↔
      ∀ e ∈ store, fuzzRatio e.1 t < SIMILARITY_THRESHOLD := by
  rw [← Bool.not_eq_true, is_similar_iff]
  push_neg
  rfl

/-- Membership in the swept store: kept exactly when at most 24h old. -/
theorem mem_remove_old_messages (store : Store) (now : Nat) (e : Str × Nat) :
    e ∈ remove_old_messages store now ↔
      e ∈ store ∧ now - e.2 ≤ FILTER_DURATION := by
  simp [remove_old_messages, List.mem_filter, not_lt]

/-- Every element of a dict assignment result is an old entry or the new
binding. -/
theorem mem_dict_set (store : Store) (k : Str) (v : Nat) (e : Str × Nat)
    (h : e ∈ dict_set store k v) : e ∈ store ∨ e = (k, v) := by
  rw [dict_set] at h
  split at h
  · rcases List.mem_map.mp h with ⟨x, hx, hxe⟩
    by_cases hk : x.1 = k
    · right; rw [← hxe]; simp [hk]
    · left; rw [← hxe]; simp [hk]; exact hx
  · rcases List.mem_append.mp h with h | h
    · left; exact h
    · right; simpa using h

/-- Entries with a different key survive a dict assignment unchanged. -/
theorem mem_dict_set_of_ne (store : Store) (k : Str) (v : Nat) (e : Str × Nat)
    (he : e ∈ store) (hne : e.1 ≠ k) : e ∈ dict_set store k v := by
  rw [dict_set]
  split
  · exact List.mem_map.mpr ⟨e, he, by simp [hne]⟩
  · exact List.mem_append.mpr (Or.inl he)

/-- When the key is absent, a dict assignment appends the new entry. -/
theorem dict_set_no_key (store : Store) (k : Str) (v : Nat)
    (h : ∀ e ∈ store, e.1 ≠ k) : dict_set store k v = store ++ [(k, v)] := by
  rw [dict_set, if_neg]
  simp only [List.any_eq_true, decide_eq_true_iff, not_exists, not_and]
  intro e he
  exact h e he

/-- The validation loop succeeds exactly when every listed variable is
truthy. -/
theorem checkVars_ok_iff (l : List (String × Bool)) :
    checkVars l = .ok () ↔ ∀ p ∈ l, p.2 = true := by
  induction l with
  | nil => simp [checkVars]
  | cons p rest ih =>
    obtain ⟨n, v⟩ := p
    cases v <;> simp [checkVars, ih]

/-- A validation error always carries the message for some falsy variable
of the list. -/
theorem checkVars_error (l : List (String × Bool)) (s : String)
    (h : checkVars l = .error s) : ∃ p ∈ l, p.2 = false ∧ s = errMsg p.1 := by
  induction l with
  | nil => simp [checkVars] at h
  | cons p rest ih =>
    obtain ⟨n, v⟩ := p
    cases v
    · refine ⟨(n, false), by simp, rfl, ?_⟩
      simp [checkVars] at h
      exact h.symm
    · simp [checkVars] at h
      rcases ih h with ⟨q, hq, hq2, hq3⟩
      exact ⟨q, by simp [hq], hq2, hq3⟩

/-- pre_eq decides list-prefix. -/
theorem pre_eq_iff (n h : Str) : pre_eq n h = true ↔ n <+: h := by
  induction n generalizing h with
  | nil => simp [pre_eq]
  | cons a as ih =>
    cases h with
    | nil => simp [pre_eq]
    | cons b bs => simp [pre_eq, ih, List.cons_prefix_cons]

/-- str_in decides contiguous-substring occurrence. -/
theorem str_in_iff (n h : Str) : str_in n h = true ↔ n <:+: h := by
  induction h with
  | nil => simp [str_in, List.isEmpty_iff]
  | cons c cs ih => simp [str_in, pre_eq_iff, ih, List.infix_cons_iff]

/-! Branch equations for the handler, one per outcome of the pipeline. -/

theorem handler_eq_of_empty (cfg : AppConfig) (store : Store) (now : Nat)
    (text : Str) (stopOk primaryOk : Bool) (h : text.isEmpty = true) :
    new_message_handler cfg store now text stopOk primaryOk =
      ⟨.dropNoText, store, [.logInfo now, .logInfo now]⟩ := by
  rw [new_message_handler, if_pos h]

theorem handler_eq_stop (cfg : AppConfig) (store : Store) (now : Nat)
    (text : Str) (stopOk primaryOk : Bool) (hemp : text.isEmpty = false)
    (hstop : contains_stop_words cfg text = true) :
    new_message_handler cfg store now text stopOk primaryOk =
      if stopOk then
        ⟨.forwardStop, remove_old_messages store now,
          [.logInfo now, .forwardMsg .stop, .logInfo now]⟩
      else
        ⟨.forwardStop, remove_old_messages store now,
          [.logInfo now, .forwardMsg .stop, .logError now, .sleep 60]⟩ := by
  simp only [new_message_handler, hemp, hstop, Bool.false_eq_true, if_false, if_true]

theorem handler_eq_dup (cfg : AppConfig) (store : Store) (now : Nat)
    (text : Str) (stopOk primaryOk : Bool) (hemp : text.isEmpty = false)
    (hstop : contains_stop_words cfg text = false)
    (hsim : is_similar (remove_old_messages store now) text = true) :
    new_message_handler cfg store now text stopOk primaryOk =
      ⟨.dropDuplicate, remove_old_messages store now,
        [.logInfo now, .logInfo now]⟩ := by
  simp only [new_message_handler, hemp, hstop, hsim, Bool.false_eq_true, if_false, if_true]

theorem handler_eq_key (cfg : AppConfig) (store : Store) (now : Nat)
    (text : Str) (stopOk primaryOk : Bool) (hemp : text.isEmpty = false)
    (hstop : contains_stop_words cfg text = false)
    (hsim : is_similar (remove_old_messages store now) text = false)
    (hkey : contains_key_words cfg text = true) :
    new_message_handler cfg store now text stopOk primaryOk =
      if primaryOk then
        ⟨.forwardPrimary, dict_set (remove_old_messages store now) text now,
          [.logInfo now, .forwardMsg .primary, .logInfo now, .sleep 2]⟩
      else
        ⟨.forwardPrimary, dict_set (remove_old_messages store now) text now,
          [.logInfo now, .forwardMsg .primary, .logError now, .sleep 60]⟩ := by
  simp only [new_message_handler, hemp, hstop, hsim, hkey, Bool.false_eq_true,
    if_false, if_true]

theorem handler_eq_nokey (cfg : AppConfig) (store : Store) (now : Nat)
    (text : Str) (stopOk primaryOk : Bool) (hemp : text.isEmpty = false)
    (hstop : contains_stop_words cfg text = false)
    (hsim : is_similar (remove_old_messages store now) text = false)
    (hkey : contains_key_words cfg text = false) :
    new_message_handler cfg store now text stopOk primaryOk =
      ⟨.dropNoKeyword, remove_old_messages store now,
        [.logInfo now, .logInfo now]⟩ := by
  simp only [new_message_handler, hemp, hstop, hsim, hkey, Bool.false_eq_true,
    if_false, if_true]

/-- No stored entry can carry the text of a message that the similarity
check let through: the score of a text against itself is 100. -/
theorem no_key_of_not_similar (s : Store) (t : Str)
    (hsim : is_similar s t = false) : ∀ e ∈ s, e.1 ≠ t := by
  intro e he heq
  rw [is_similar_false_iff] at hsim
  have hlt := hsim e he
  rw [heq, fuzzRatio_self, SIMILARITY_THRESHOLD] at hlt
  norm_num at hlt

/-! The claims. -/

/-- C1: a non-empty message containing a stop phrase always classifies as
ForwardToStopDestination, whatever the duplicate store holds and whether a
key phrase is present; the store only loses expired entries during the
sweep and the message itself is never added to it. -/
theorem claim1_stop_phrase_precedence (cfg : AppConfig) (store : Store)
    (now : Nat) (text : Str) (stopOk primaryOk : Bool)
    (hne : text ≠ []) (hstop : contains_stop_words cfg text = true) :
    (new_message_handler cfg store now text stopOk primaryOk).outcome = .forwardStop ∧
    (new_message_handler cfg store now text stopOk primaryOk).store =
      remove_old_messages store now ∧
    ∀ e ∈ (new_message_handler cfg store now text stopOk primaryOk).store,
      e ∈ store := by
  have hemp : text.isEmpty = false := by
    cases text with
    | nil => exact absurd rfl hne
    | cons c cs => rfl
  rw [handler_eq_stop cfg store now text stopOk primaryOk hemp hstop]
  cases stopOk <;>
    exact ⟨rfl, rfl, fun e he => ((mem_remove_old_messages store now e).mp he).1⟩

theorem claim1_witness :
    (new_message_handler cfgEx [(S "stopkey", 0)] 5 (S "stopkey") true true).outcome
      = .forwardStop :=
  (claim1_stop_phrase_precedence cfgEx [(S "stopkey", 0)] 5 (S "stopkey") true true
    (by decide) (by decide)).1

/-- C2: a non-empty message with no stop phrase is dropped as a duplicate
exactly when some entry retained by the sweep has fuzzy similarity at or
above the inclusive threshold against the raw message text. -/
theorem claim2_duplicate_iff_retained_similar (cfg : AppConfig) (store : Store)
    (now : Nat) (text : Str) (stopOk primaryOk : Bool)
    (hne : text ≠ []) (hstop : contains_stop_words cfg text = false) :
    (new_message_handler cfg store now text stopOk primaryOk).outcome = .dropDuplicate ↔
      ∃ e ∈ remove_old_messages store now,
        SIMILARITY_THRESHOLD ≤ fuzzRatio e.1 text := by
  have hemp : text.isEmpty = false := by
    cases text with
    | nil => exact absurd rfl hne
    | cons c cs => rfl
  rw [← is_similar_iff]
  cases hsim : is_similar (remove_old_messages store now) text with
  | true =>
    rw [handler_eq_dup cfg store now text stopOk primaryOk hemp hstop hsim]
    simp
  | false =>
    have hout : (new_message_handler cfg store now text stopOk primaryOk).outcome
        ≠ .dropDuplicate := by
      cases hkey : contains_key_words cfg text with
      | true =>
        rw [handler_eq_key cfg store now text stopOk primaryOk hemp hstop hsim hkey]
        cases primaryOk <;> simp
      | false =>
        rw [handler_eq_nokey cfg store now text stopOk primaryOk hemp hstop hsim hkey]
        simp
    simp [hout]

theorem claim2_witness :
    (new_message_handler cfgEx [(S "abcdefghij", 0)] 5 (S "abcdefghik") true true).outcome
      = .dropDuplicate :=
  (claim2_duplicate_iff_retained_similar cfgEx [(S "abcdefghij", 0)] 5
      (S "abcdefghik") true true (by decide) (by decide)).mpr
    ⟨(S "abcdefghij", 0), by decide, (similarity_ge_iff _ _).mp (by decide)⟩

/-- C6: the duplicate store gains entries only on the key-word admission
branch: for every other outcome the resulting store is the old store or its
swept form, and in particular every surviving entry, text and timestamp
unchanged, was already present. -/
theorem claim6_store_gains_only_on_admission (cfg : AppConfig) (store : Store)
    (now : Nat) (text : Str) (stopOk primaryOk : Bool)
    (h : (new_message_handler cfg store now text stopOk primaryOk).outcome
      ≠ .forwardPrimary) :
    ((new_message_handler cfg store now text stopOk primaryOk).store = store ∨
     (new_message_handler cfg store now text stopOk primaryOk).store =
       remove_old_messages store now) ∧
    ∀ e ∈ (new_message_handler cfg store now text stopOk primaryOk).store,
      e ∈ store := by
  cases hemp : text.isEmpty with
  | true =>
    rw [handler_eq_of_empty cfg store now text stopOk primaryOk hemp]
    exact ⟨Or.inl rfl, fun e he => he⟩
  | false =>
    cases hstop : contains_stop_words cfg text with
    | true =>
      rw [handler_eq_stop cfg store now text stopOk primaryOk hemp hstop]
      cases stopOk <;>
        exact ⟨Or.inr rfl, fun e he => ((mem_remove_old_messages store now e).mp he).1⟩
    | false =>
      cases hsim : is_similar (remove_old_messages store now) text with
      | true =>
        rw [handler_eq_dup cfg store now text stopOk primaryOk hemp hstop hsim]
        exact ⟨Or.inr rfl, fun e he => ((mem_remove_old_messages store now e).mp he).1⟩
      | false =>
        cases hkey : contains_key_words cfg text with
        | true =>
          exfalso
          apply h
          rw [handler_eq_key cfg store now text stopOk primaryOk hemp hstop hsim hkey]
          cases primaryOk <;> rfl
        | false =>
          rw [handler_eq_nokey cfg store now text stopOk primaryOk hemp hstop hsim hkey]
          exact ⟨Or.inr rfl, fun e he => ((mem_remove_old_messages store now e).mp he).1⟩

theorem claim6_witness :
    ((new_message_handler cfgEx [(S "abc", 0)] 5 (S "zzz") true true).store
        = [(S "abc", 0)] ∨
     (new_message_handler cfgEx [(S "abc", 0)] 5 (S "zzz") true true).store
        = remove_old_messages [(S "abc", 0)] 5) ∧
    ∀ e ∈ (new_message_handler cfgEx [(S "abc", 0)] 5 (S "zzz") true true).store,
      e ∈ [(S "abc", 0)] :=
  claim6_store_gains_only_on_admission cfgEx [(S "abc", 0)] 5 (S "zzz") true true
    (by decide)

/-- C7: when the forward call of the taken branch raises, the handler
catches the error: its trace contains an error log line stamped with the
current time, ends with the fixed 60-second cooldown sleep, and holds
exactly one forward attempt, so the failed message is not retried; the
handler returns a value, so the loop goes on to later events. -/
theorem claim7_error_cooldown (cfg : AppConfig) (store : Store) (now : Nat)
    (text : Str) (stopOk primaryOk : Bool)
    (h : ((new_message_handler cfg store now text stopOk primaryOk).outcome
            = .forwardStop ∧ stopOk = false) ∨
         ((new_message_handler cfg store now text stopOk primaryOk).outcome
            = .forwardPrimary ∧ primaryOk = false)) :
    Action.logError now ∈ (new_message_handler cfg store now text stopOk primaryOk).actions ∧
    (new_message_handler cfg store now text stopOk primaryOk).actions.getLast?
      = some (.sleep 60) ∧
    ((new_message_handler cfg store now text stopOk primaryOk).actions.filter
      isForwardAct).length = 1 := by
  cases hemp : text.isEmpty with
  | true =>
    rw [handler_eq_of_empty cfg store now text stopOk primaryOk hemp] at h ⊢
    simp at h
  | false =>
    cases hstop : contains_stop_words cfg text with
    | true =>
      rw [handler_eq_stop cfg store now text stopOk primaryOk hemp hstop] at h ⊢
      cases stopOk with
      | false => exact ⟨by simp, rfl, rfl⟩
      | true => simp at h
    | false =>
      cases hsim : is_similar (remove_old_messages store now) text with
      | true =>
        rw [handler_eq_dup cfg store now text stopOk primaryOk hemp hstop hsim] at h ⊢
        simp at h
      | false =>
        cases hkey : contains_key_words cfg text with
        | true =>
          rw [handler_eq_key cfg store now text stopOk primaryOk hemp hstop hsim hkey] at h ⊢
          cases primaryOk with
          | false => exact ⟨by simp, rfl, rfl⟩
          | true => simp at h
        | false =>
          rw [handler_eq_nokey cfg store now text stopOk primaryOk hemp hstop hsim hkey] at h ⊢
          simp at h

theorem claim7_witness :
    Action.logError 5 ∈ (new_message_handler cfgEx [] 5 (S "akeyb") true false).actions ∧
    (new_message_handler cfgEx [] 5 (S "akeyb") true false).actions.getLast?
      = some (.sleep 60) ∧
    ((new_message_handler cfgEx [] 5 (S "akeyb") true false).actions.filter
      isForwardAct).length = 1 :=
  claim7_error_cooldown cfgEx [] 5 (S "akeyb") true false (Or.inr ⟨by decide, rfl⟩)

/-- C9: a successful primary forward is followed by the fixed 2-second
pacing sleep as the last action of the handler invocation; no 2-second
sleep appears in the trace of a stop forward, of any drop, or of a failed
primary forward. -/
theorem claim9_pacing (cfg : AppConfig) (store : Store) (now : Nat)
    (text : Str) (stopOk primaryOk : Bool) :
    ((new_message_handler cfg store now text stopOk primaryOk).outcome
        = .forwardPrimary → primaryOk = true →
      (new_message_handler cfg store now text stopOk primaryOk).actions.getLast?
        = some (.sleep 2)) ∧
    ((new_message_handler cfg store now text stopOk primaryOk).outcome
        ≠ .forwardPrimary →
      Action.sleep 2 ∉ (new_message_handler cfg store now text stopOk primaryOk).actions) ∧
    (primaryOk = false →
      Action.sleep 2 ∉ (new_message_handler cfg store now text stopOk primaryOk).actions) := by
  cases hemp : text.isEmpty with
  | true =>
    rw [handler_eq_of_empty cfg store now text stopOk primaryOk hemp]
    exact ⟨by intro h; simp at h, fun _ => by simp, fun _ => by simp⟩
  | false =>
    cases hstop : contains_stop_words cfg text with
    | true =>
      rw [handler_eq_stop cfg store now text stopOk primaryOk hemp hstop]
      cases stopOk with
      | true => exact ⟨by intro h; simp at h, fun _ => by simp, fun _ => by simp⟩
      | false => exact ⟨by intro h; simp at h, fun _ => by simp, fun _ => by simp⟩
    | false =>
      cases hsim : is_similar (remove_old_messages store now) text with
      | true =>
        rw [handler_eq_dup cfg store now text stopOk primaryOk hemp hstop hsim]
        exact ⟨by intro h; simp at h, fun _ => by simp, fun _ => by simp⟩
      | false =>
        cases hkey : contains_key_words cfg text with
        | true =>
          rw [handler_eq_key cfg store now text stopOk primaryOk hemp hstop hsim hkey]
          cases primaryOk with
          | true =>
            refine ⟨fun _ _ => rfl, fun hcon => absurd rfl hcon, fun hfa => ?_⟩
            simp at hfa
          | false =>
            refine ⟨fun _ hcon => by simp at hcon, fun hcon => absurd rfl hcon,
              fun _ => by simp⟩
        | false =>
          rw [handler_eq_nokey cfg store now text stopOk primaryOk hemp hstop hsim hkey]
          exact ⟨by intro h; simp at h, fun _ => by simp, fun _ => by simp⟩

theorem claim9_witness :
    (new_message_handler cfgEx [] 5 (S "akeyb") true true).actions.getLast?
      = some (.sleep 2) :=
  (claim9_pacing cfgEx [] 5 (S "akeyb") true true).1 (by decide) rfl

/-- C3: the sweep removes exactly the entries whose age strictly exceeds
24 hours, and it runs on every text-bearing message before the similarity
check: an entry admitted at T still blocks as a duplicate at T + 23h59m;
at T + 24h01m it is gone from the store the handler leaves and no longer
blocks a fresh admission of its text. -/
theorem claim3_expiry (cfg : AppConfig) (store : Store) (m : Str) (ts : Nat)
    (stopOk primaryOk : Bool) :
    (∀ now e, e ∈ remove_old_messages store now ↔
       e ∈ store ∧ now - e.2 ≤ FILTER_DURATION) ∧
    ((m, ts) ∈ store → m ≠ [] → contains_stop_words cfg m = false →
      (new_message_handler cfg store (ts + 86340) m stopOk primaryOk).outcome
        = .dropDuplicate) ∧
    ((m, ts) ∈ store → m ≠ [] →
      (m, ts) ∉ (new_message_handler cfg store (ts + 86460) m stopOk primaryOk).store) ∧
    ((m, ts) ∈ store → m ≠ [] → contains_stop_words cfg m = false →
      contains_key_words cfg m = true →
      (∀ e ∈ store, ts + 86460 - e.2 ≤ FILTER_DURATION →
        fuzzRatio e.1 m < SIMILARITY_THRESHOLD) →
      (new_message_handler cfg store (ts + 86460) m stopOk primaryOk).outcome
        = .forwardPrimary ∧
      (m, ts + 86460) ∈
        (new_message_handler cfg store (ts + 86460) m stopOk primaryOk).store) := by
  refine ⟨fun now e => mem_remove_old_messages store now e, ?_, ?_, ?_⟩
  · intro hmem hne hstop
    have hemp : m.isEmpty = false := by
      cases m with
      | nil => exact absurd rfl hne
      | cons c cs => rfl
    have hkeep : (m, ts) ∈ remove_old_messages store (ts + 86340) :=
      (mem_remove_old_messages store (ts + 86340) (m, ts)).mpr
        ⟨hmem, by simp [FILTER_DURATION]⟩
    have hsim : is_similar (remove_old_messages store (ts + 86340)) m = true := by
      rw [is_similar, List.any_eq_true]
      exact ⟨(m, ts), hkeep, similarity_ge_self m⟩
    rw [handler_eq_dup cfg store (ts + 86340) m stopOk primaryOk hemp hstop hsim]
  · intro hmem hne
    have hemp : m.isEmpty = false := by
      cases m with
      | nil => exact absurd rfl hne
      | cons c cs => rfl
    have hgone : (m, ts) ∉ remove_old_messages store (ts + 86460) := by
      intro hc
      have := ((mem_remove_old_messages store (ts + 86460) (m, ts)).mp hc).2
      simp [FILTER_DURATION] at this
    cases hstop : contains_stop_words cfg m with
    | true =>
      rw [handler_eq_stop cfg store (ts + 86460) m stopOk primaryOk hemp hstop]
      cases stopOk <;> exact hgone
    | false =>
      cases hsim : is_similar (remove_old_messages store (ts + 86460)) m with
      | true =>
        rw [handler_eq_dup cfg store (ts + 86460) m stopOk primaryOk hemp hstop hsim]
        exact hgone
      | false =>
        cases hkey : contains_key_words cfg m with
        | false =>
          rw [handler_eq_nokey cfg store (ts + 86460) m stopOk primaryOk hemp hstop
            hsim hkey]
          exact hgone
        | true =>
          rw [handler_eq_key cfg store (ts + 86460) m stopOk primaryOk hemp hstop
            hsim hkey]
          have hdict : (m, ts) ∉
              dict_set (remove_old_messages store (ts + 86460)) m (ts + 86460) := by
            intro hc
            rcases mem_dict_set _ _ _ _ hc with hc | hc
            · exact hgone hc
            · have : ts = ts + 86460 := congrArg Prod.snd hc
              omega
          cases primaryOk <;> exact hdict
  · intro hmem hne hstop hkey hfar
    have hemp : m.isEmpty = false := by
      cases m with
      | nil => exact absurd rfl hne
      | cons c cs => rfl
    have hsim : is_similar (remove_old_messages store (ts + 86460)) m = false := by
      rw [is_similar_false_iff]
      intro e he
      have h2 := (mem_remove_old_messages store (ts + 86460) e).mp he
      exact hfar e h2.1 h2.2
    rw [handler_eq_key cfg store (ts + 86460) m stopOk primaryOk hemp hstop hsim hkey]
    have hnew : (m, ts + 86460) ∈
        dict_set (remove_old_messages store (ts + 86460)) m (ts + 86460) := by
      rw [dict_set_no_key _ _ _ (no_key_of_not_similar _ _ hsim)]
      simp
    cases primaryOk <;> exact ⟨rfl, hnew⟩

theorem claim3_witness :
    (new_message_handler cfgEx [(S "abc", 100)] (100 + 86340) (S "abc") true true).outcome
      = .dropDuplicate :=
  (claim3_expiry cfgEx [(S "abc", 100)] (S "abc") 100 true true).2.1
    (by decide) (by decide) (by decide)

/-- C5: handling a message never refreshes a retained entry: every
unexpired entry survives the invocation with text and timestamp unchanged,
and a message whose raw text equals a retained unexpired entry and has no
stop phrase is dropped by the duplicate check, so the admission assignment
never runs for a text already present within the window. -/
theorem claim5_no_timestamp_refresh (cfg : AppConfig) (store : Store)
    (now : Nat) (text : Str) (stopOk primaryOk : Bool) :
    (∀ e ∈ store, now - e.2 ≤ FILTER_DURATION →
      e ∈ (new_message_handler cfg store now text stopOk primaryOk).store) ∧
    (∀ ts, (text, ts) ∈ store → now - ts ≤ FILTER_DURATION → text ≠ [] →
      contains_stop_words cfg text = false →
      (new_message_handler cfg store now text stopOk primaryOk).outcome
        = .dropDuplicate) := by
  constructor
  · intro e he hage
    have hkeep : e ∈ remove_old_messages store now :=
      (mem_remove_old_messages store now e).mpr ⟨he, hage⟩
    cases hemp : text.isEmpty with
    | true =>
      rw [handler_eq_of_empty cfg store now text stopOk primaryOk hemp]
      exact he
    | false =>
      cases hstop : contains_stop_words cfg text with
      | true =>
        rw [handler_eq_stop cfg store now text stopOk primaryOk hemp hstop]
        cases stopOk <;> exact hkeep
      | false =>
        cases hsim : is_similar (remove_old_messages store now) text with
        | true =>
          rw [handler_eq_dup cfg store now text stopOk primaryOk hemp hstop hsim]
          exact hkeep
        | false =>
          cases hkey : contains_key_words cfg text with
          | false =>
            rw [handler_eq_nokey cfg store now text stopOk primaryOk hemp hstop
              hsim hkey]
            exact hkeep
          | true =>
            rw [handler_eq_key cfg store now text stopOk primaryOk hemp hstop
              hsim hkey]
            have hsurv : e ∈ dict_set (remove_old_messages store now) text now :=
              mem_dict_set_of_ne _ _ _ _ hkeep
                (no_key_of_not_similar _ _ hsim e hkeep)
            cases primaryOk <;> exact hsurv
  · intro ts hmem hage hne hstop
    have hemp : text.isEmpty = false := by
      cases text with
      | nil => exact absurd rfl hne
      | cons c cs => rfl
    have hsim : is_similar (remove_old_messages store now) text = true := by
      rw [is_similar, List.any_eq_true]
      exact ⟨(text, ts),
        (mem_remove_old_messages store now (text, ts)).mpr ⟨hmem, hage⟩,
        similarity_ge_self text⟩
    rw [handler_eq_dup cfg store now text stopOk primaryOk hemp hstop hsim]

theorem claim5_witness :
    (new_message_handler cfgEx [(S "abcd", 3)] 7 (S "abcd") true true).outcome
      = .dropDuplicate :=
  (claim5_no_timestamp_refresh cfgEx [(S "abcd", 3)] 7 (S "abcd") true true).2 3
    (by decide) (by decide) (by decide) (by decide)

/-! The pairwise-dissimilarity invariant of the store (claim C10). -/

theorem pairwiseDissim_remove_old (store : Store) (now : Nat)
    (h : PairwiseDissim store) : PairwiseDissim (remove_old_messages store now) := by
  intro e1 h1 e2 h2 hne
  exact h e1 ((mem_remove_old_messages store now e1).mp h1).1
    e2 ((mem_remove_old_messages store now e2).mp h2).1 hne

/-- One handler invocation preserves the pairwise-dissimilarity invariant:
a removal-only sweep keeps it, and an admission was checked against every
retained entry by is_similar just before. -/
theorem pairwiseDissim_handler (cfg : AppConfig) (s : Store) (now : Nat) (t : Str)
    (h : PairwiseDissim s) : PairwiseDissim (handler_store cfg s now t) := by
  have hswept := pairwiseDissim_remove_old s now h
  rw [handler_store]
  cases hemp : t.isEmpty with
  | true =>
    rw [handler_eq_of_empty cfg s now t true true hemp]
    exact h
  | false =>
    cases hstop : contains_stop_words cfg t with
    | true =>
      rw [handler_eq_stop cfg s now t true true hemp hstop, if_pos rfl]
      exact hswept
    | false =>
      cases hsim : is_similar (remove_old_messages s now) t with
      | true =>
        rw [handler_eq_dup cfg s now t true true hemp hstop hsim]
        exact hswept
      | false =>
        cases hkey : contains_key_words cfg t with
        | false =>
          rw [handler_eq_nokey cfg s now t true true hemp hstop hsim hkey]
          exact hswept
        | true =>
          rw [handler_eq_key cfg s now t true true hemp hstop hsim hkey, if_pos rfl]
          show PairwiseDissim (dict_set (remove_old_messages s now) t now)
          rw [dict_set_no_key _ _ _ (no_key_of_not_similar _ _ hsim)]
          intro e1 h1 e2 h2 hne
          have hlt := (is_similar_false_iff _ _).mp hsim
          rcases List.mem_append.mp h1 with h1m | h1m <;>
            rcases List.mem_append.mp h2 with h2m | h2m
          · exact hswept e1 h1m e2 h2m hne
          · have he2 : e2 = (t, now) := by simpa using h2m
            subst he2
            exact hlt e1 h1m
          · have he1 : e1 = (t, now) := by simpa using h1m
            subst he1
            rw [fuzzRatio_comm]
            exact hlt e2 h2m
          · have he1 : e1 = (t, now) := by simpa using h1m
            have he2 : e2 = (t, now) := by simpa using h2m
            rw [he1, he2] at hne
            exact absurd rfl hne

theorem pairwiseDissim_run_events (cfg : AppConfig) (events : List (Nat × Str)) :
    ∀ s, PairwiseDissim s → PairwiseDissim (run_events cfg s events) := by
  induction events with
  | nil => intro s h; exact h
  | cons ev rest ih =>
    intro s h
    obtain ⟨now, t⟩ := ev
    exact ih _ (pairwiseDissim_handler cfg s now t h)

/-- C10: starting from the empty store, after any sequence of handler
invocations every two distinct entries of the store score strictly below
the threshold against each other: a text is only admitted when the
similarity check against all retained entries failed and entries are never
modified in place. -/
theorem claim10_pairwise_dissimilar (cfg : AppConfig) (events : List (Nat × Str))
    (e1 e2 : Str × Nat) (h1 : e1 ∈ run_events cfg [] events)
    (h2 : e2 ∈ run_events cfg [] events) (hne : e1 ≠ e2) :
    fuzzRatio e1.1 e2.1 < SIMILARITY_THRESHOLD := by
  have hpw : PairwiseDissim (run_events cfg [] events) :=
    pairwiseDissim_run_events cfg events []
      (fun a ha => absurd ha (List.not_mem_nil a))
  exact hpw e1 h1 e2 h2 hne

theorem claim10_witness :
    fuzzRatio (S "keyab") (S "zzzzkey") < SIMILARITY_THRESHOLD :=
  claim10_pairwise_dissimilar cfgEx [(0, S "keyab"), (1, S "zzzzkey")]
    (S "keyab", 0) (S "zzzzkey", 1) (by decide) (by decide) (by decide)

/-- C4 counterexample: the normalization of the code removes only the
ASCII space; a tab survives remove_spaces, so it does not agree with the
normalization of the claim, which deletes every whitespace character. -/
theorem claim4_counterexample :
    clean_text (S "a\tb") = S "a\tb" ∧
    clean_text (S "a\tb") ≠ normalizeSpec (S "a\tb") := by
  decide

/-- C4 amended: normalization lowercases and removes exactly the ASCII
space characters, keeping every other whitespace character, and this same
normalization is applied both to the message text and to each configured
phrase before substring containment is tested in the stop-word check and
in the key-word check. -/
theorem claim4_amended_normalization (cfg : AppConfig) (text : Str) :
    (clean_text text = (text.map Char.toLower).filter (fun c => c != ' ')) ∧
    (contains_stop_words cfg text = true ↔
      ∃ w ∈ cfg.stop_words, clean_text w <:+: clean_text text) ∧
    (contains_key_words cfg text = true ↔
      ∃ w ∈ cfg.key_words, clean_text w <:+: clean_text text) := by
  refine ⟨rfl, ?_, ?_⟩
  · simp [contains_stop_words, stop_words_set, List.any_eq_true, str_in_iff,
      clean_text]
  · simp [contains_key_words, key_words_set, List.any_eq_true, str_in_iff,
      clean_text]

theorem claim4_witness :
    contains_stop_words cfgEx (S "S T O P!") = true :=
  (claim4_amended_normalization cfgEx (S "S T O P!")).2.1.mpr
    ⟨S "stop", by decide, by decide⟩

/-- C8: validation succeeds exactly when every required variable is truthy;
a validation failure reports the message naming some falsy variable; and an
empty key-word list or stop-word list makes startup fail before any event
is processed, whatever events would have arrived. -/
theorem claim8_config_validation (c : AppConfig) :
    (validate_config c = .ok () ↔
      (c.api_id ≠ 0 ∧ c.api_hash ≠ [] ∧ c.session ≠ [] ∧ c.destination ≠ [] ∧
       c.stop_words_destination ≠ [] ∧ c.chats ≠ [] ∧ c.key_words ≠ [] ∧
       c.stop_words ≠ [])) ∧
    (∀ s, validate_config c = .error s →
      ∃ p ∈ requiredGlobals c, p.2 = false ∧ s = errMsg p.1) ∧
    (c.key_words = [] → ∀ events, ∃ s, run_bot c events = .error s) ∧
    (c.stop_words = [] → ∀ events, ∃ s, run_bot c events = .error s) := by
  have hok : validate_config c = .ok () ↔
      (c.api_id ≠ 0 ∧ c.api_hash ≠ [] ∧ c.session ≠ [] ∧ c.destination ≠ [] ∧
       c.stop_words_destination ≠ [] ∧ c.chats ≠ [] ∧ c.key_words ≠ [] ∧
       c.stop_words ≠ []) := by
    rw [validate_config, checkVars_ok_iff]
    simp [requiredGlobals, List.isEmpty_iff, bne_iff_ne]
  refine ⟨hok, ?_, ?_, ?_⟩
  · intro s hs
    rw [validate_config] at hs
    exact checkVars_error (requiredGlobals c) s hs
  · intro hk events
    cases hval : validate_config c with
    | error s => exact ⟨s, by rw [run_bot, hval]⟩
    | ok u =>
      cases u
      exact absurd hk (hok.mp hval).2.2.2.2.2.2.1
  · intro hk events
    cases hval : validate_config c with
    | error s => exact ⟨s, by rw [run_bot, hval]⟩
    | ok u =>
      cases u
      exact absurd hk (hok.mp hval).2.2.2.2.2.2.2

theorem claim8_witness :
    ∃ s, run_bot ⟨1, S "h", S "s", S "d", S "sd", [100], [], [S "stop"]⟩ []
      = .error s :=
  (claim8_config_validation ⟨1, S "h", S "s", S "d", S "sd", [100], [], [S "stop"]⟩).2.2.1
    rfl []

end Proba2
